import Mathlib

/-!
Formal model of the stock risk-scoring core.

Shallow embedding, over `ℚ`, of the risk-scoring algorithms of this
repository:

* `calculateRiskFromDeviations`, `calculateRisk`, `calculateEMAFocusedRisk`,
  `calculateEnhancedRisk`, `calculateSimpleRisk` and
  `loadDataFromStockCSV` from `src/lib/stock-risk-utils.ts`;
* `calculateSMA`, `calculateEMA`, `calculateRollingVolatility`,
  `calculateRollingPercentile` from the indicators module;
* `generateStockCSV` and the duplicated risk pipeline from the generation
  script.

Modelling conventions, used throughout and noted again at each definition
where they matter:

* The JavaScript IEEE-754 `number` is modelled by `ℚ`.  All constants in the
  source are decimal literals, so every arithmetic step of the pipeline is
  exact in `ℚ`.  Division by zero in `ℚ` yields `0` whereas JS yields
  `±Infinity`/`NaN`; each place where this could matter is either guarded
  exactly as in the source, carries an explicit `Option` (the SMA), or is
  noted in a comment.  No theorem below depends on a value at which the two
  conventions diverge.
* `Math.sqrt` is not `ℚ`-computable.  Every square root in the source is
  consumed exclusively by order comparisons against nonnegative constants or
  against other square roots; since `Real.sqrt` is strictly monotone on
  `[0, ∞)`, the embedding keeps the *squared* quantity and compares squares.
* `array.map((x, i) => ...)` is `jsMapIdx`, `array.slice(a, b)` is `jsSlice`
  (with JS index clamping), `array.reduce((a, b) => a + b, 0)` is `jsSum`.
* The wall-clock anchor `new Date()` taken at the top of the risk functions
  is passed explicitly as a parameter `now` (epoch milliseconds), and
  `Date` values are their epoch-millisecond timestamps.
-/

/-- Embeds `array.reduce((acc, val) => acc + val, 0)`. -/
def jsSum (l : List ℚ) : ℚ := l.foldl (· + ·) 0

/-- Clamp an intended index into `[0, len]`, resolving negative values from
the end, exactly as `Array.prototype.slice` does. -/
def jsSliceIdx (len : Int) (x : Int) : ℕ :=
  (max 0 (min len (if x < 0 then len + x else x))).toNat

/-- Embeds `array.slice(start, stop)` with JavaScript semantics. -/
def jsSlice {α : Type} (l : List α) (start stop : Int) : List α :=
  let s := jsSliceIdx l.length start
  let e := jsSliceIdx l.length stop
  (l.drop s).take (e - s)

/-- Helper for `jsMapIdx`: map with the index starting at `k`. -/
def mapIdxGo {α β : Type} (f : ℕ → α → β) : ℕ → List α → List β
  | _, [] => []
  | k, a :: l => f k a :: mapIdxGo f (k + 1) l

/-- Embeds `array.map((a, index) => f(index, a))`. -/
def jsMapIdx {α β : Type} (f : ℕ → α → β) (l : List α) : List β :=
  mapIdxGo f 0 l

/-- Embeds `Math.round(x * 100) / 100` — JS `Math.round` is `⌊x + 1/2⌋`. -/
def round2 (x : ℚ) : ℚ := (⌊x * 100 + 1/2⌋ : ℤ) / 100

/-- Embeds `Math.max(1, Math.min(10, risk))`. -/
def clamp110 (x : ℚ) : ℚ := max 1 (min 10 x)

/-- One point of a series: the `StockDataPoint` interface.  `date` is the
epoch-millisecond value of the `Date` object. -/
structure Pt where
  date : ℚ
  price : ℚ
  ema8 : ℚ
  ema21 : ℚ
  sma50 : ℚ
  sma100 : ℚ
  sma200 : ℚ
  sma400 : ℚ
  risk : ℚ
  timestamp : ℚ
deriving DecidableEq

/-- The all-zero point, used as the out-of-range default for `List.getD`. -/
def pt0 : Pt := ⟨0, 0, 0, 0, 0, 0, 0, 0, 0, 0⟩

instance : Inhabited Pt := ⟨pt0⟩

/-- The `riskThresholds` part of `RiskCalculationConfig`. -/
structure Thresholds where
  yellowTerritory : ℚ
  elevatedTerritory : ℚ
  nearEMA : ℚ
deriving DecidableEq

/-- The `algorithm` selector of `RiskCalculationConfig`. -/
inductive Algorithm where
  | emaFocused
  | enhanced
  | simple
deriving DecidableEq

/-- The `RiskCalculationConfig` after the `{...DEFAULT_CONFIG, ...config}`
merge.  The `emaPeriods`/`smaPeriods` entries are never read by any of the
three risk-calculation strategies, so they are not modelled here. -/
structure Config where
  algorithm : Algorithm
  riskThresholds : Thresholds
deriving DecidableEq

/-- The `riskThresholds` of `DEFAULT_CONFIG` (also the constants hardcoded
in `calculateRiskFromDeviations`). -/
def defaultThresholds : Thresholds :=
  { yellowTerritory := 0.15, elevatedTerritory := 0.08, nearEMA := -0.05 }

/-- The `DEFAULT_CONFIG` object. -/
def defaultConfig : Config :=
  { algorithm := .emaFocused, riskThresholds := defaultThresholds }

/-- STEP 1 of the EMA-focused pipeline: base risk from the deviations.
This is the branch structure shared verbatim between the body of
`calculateEMAFocusedRisk` (with `config.riskThresholds`) and
`calculateRiskFromDeviations` (with the default thresholds hardcoded). -/
def baseRiskFromDeviations (th : Thresholds)
    (dev8EMA dev21EMA dev50SMA dev100SMA dev200SMA : ℚ) : ℚ :=
  if dev8EMA ≥ th.yellowTerritory then
    if dev8EMA ≥ th.yellowTerritory * 2 then 9.5
    else if dev8EMA ≥ th.yellowTerritory * 1.5 then 9.0
    else if dev8EMA ≥ th.yellowTerritory * 1.2 then 8.5
    else 8.0
  else if dev8EMA ≥ th.elevatedTerritory then
    let range := th.yellowTerritory - th.elevatedTerritory
    let position := (dev8EMA - th.elevatedTerritory) / range
    6.5 + position * 1.5
  else if dev8EMA ≥ th.nearEMA then
    let range := th.elevatedTerritory - th.nearEMA
    let position := (dev8EMA - th.nearEMA) / range
    5.0 + position * 1.5
  else if dev21EMA ≥ -0.08 then
    if dev21EMA ≥ 0 then 4.0 + dev21EMA / 0.08 * 1.0
    else 3.0 + (dev21EMA + 0.08) / 0.08 * 1.0
  else
    let deepestDeviation := min dev50SMA (min dev100SMA dev200SMA)
    if deepestDeviation ≤ -0.25 then 1.0
    else if deepestDeviation ≤ -0.15 then 1.5
    else if deepestDeviation ≤ -0.08 then 2.0
    else if dev50SMA ≤ -0.03 then 2.5
    else 3.0

/-- Embeds `calculateRiskFromDeviations` from `stock-risk-utils.ts`: the default
thresholds followed by `Math.max(1, Math.min(10, risk))`. -/
def calculateRiskFromDeviations
    (dev8EMA dev21EMA dev50SMA dev100SMA dev200SMA : ℚ) : ℚ :=
  clamp110 (baseRiskFromDeviations defaultThresholds
    dev8EMA dev21EMA dev50SMA dev100SMA dev200SMA)

/-- The `modernWeight`: `Math.max(0, Math.min(1, (5 - yearsFromNow) / 5))` with
`yearsFromNow = (now - point.date) / (365.25 * 24 * 60 * 60 * 1000)`. -/
def modernWeight (now : ℚ) (p : Pt) : ℚ :=
  max 0 (min 1 ((5 - (now - p.date) / 31557600000) / 5))

/-- STEP 2 (time-based adjustment) of the EMA-focused pipeline. -/
def timeAdjust (w : ℚ) (risk : ℚ) : ℚ :=
  if w > 0.7 then
    if risk ≤ 3 then risk - 0.2
    else if risk ≥ 7 then risk + 0.1
    else risk
  else risk

/-- The squared `volatility` of STEP 3:
`recentPrices = dataPoints.slice(Math.max(0, index - 20), index + 1).map(price)`,
`priceChanges[i] = (recentPrices[i+1] - recentPrices[i]) / recentPrices[i]`,
value `= priceChanges.reduce((s, c) => s + c*c, 0) / priceChanges.length`.
The source takes `Math.sqrt` of this and compares the root against
`0.06`/`0.04`; the embedding keeps the square and compares against
`0.0036`/`0.0016`, which is the same predicate since the square root is
strictly monotone on nonnegatives.  (If `priceChanges` were empty JS would
produce `NaN`, failing both comparisons; here `ℚ` division by zero gives
`0`, also failing both — and the step only runs at `index > 50`, where the
window holds 21 points.) -/
def volatilitySq (dataPoints : List Pt) (index : ℕ) : ℚ :=
  let recentPrices := (jsSlice dataPoints (max 0 ((index : Int) - 20)) ((index : Int) + 1)).map Pt.price
  let priceChanges := List.zipWith (fun next prev => (next - prev) / prev) recentPrices.tail recentPrices
  jsSum (priceChanges.map (fun c => c * c)) / priceChanges.length

/-- STEP 3 (volatility adjustment) of the EMA-focused pipeline. -/
def volAdjust (w : ℚ) (dataPoints : List Pt) (index : ℕ) (risk : ℚ) : ℚ :=
  if w > 0.3 ∧ index > 50 then
    if volatilitySq dataPoints index > 0.0036 then risk - 0.2
    else if volatilitySq dataPoints index > 0.0016 then risk - 0.1
    else risk
  else risk

/-- STEP 4 (trend consistency bonus/penalty) of the EMA-focused pipeline. -/
def trendAdjust (dev8EMA dev21EMA dev50SMA : ℚ) (risk : ℚ) : ℚ :=
  let trendAlignment :=
    ((if dev8EMA > 0 then (1 : ℚ) else -1) +
     (if dev21EMA > 0 then (1 : ℚ) else -1) +
     (if dev50SMA > 0 then (1 : ℚ) else -1)) / 3
  if |trendAlignment| > 0.6 then risk + trendAlignment * 0.15 else risk

/-- Steps 1–5a of the EMA-focused pipeline for a non-guarded point: base
risk, time adjustment, volatility adjustment, trend adjustment, and the
final `Math.max(1, Math.min(10, risk))` clamp — everything before the
smoothing blend. -/
def emaRawRisk (now : ℚ) (th : Thresholds) (dataPoints : List Pt)
    (index : ℕ) (point : Pt) : ℚ :=
  let w := modernWeight now point
  let dev8EMA := (point.price - point.ema8) / point.ema8
  let dev21EMA := (point.price - point.ema21) / point.ema21
  let dev50SMA := (point.price - point.sma50) / point.sma50
  let dev100SMA := (point.price - point.sma100) / point.sma100
  let dev200SMA := (point.price - point.sma200) / point.sma200
  clamp110 (trendAdjust dev8EMA dev21EMA dev50SMA
    (volAdjust w dataPoints index
      (timeAdjust w
        (baseRiskFromDeviations th dev8EMA dev21EMA dev50SMA dev100SMA dev200SMA))))

/-- STEP 5b, the smoothing blend:
`if (index > 0 && index < dataPoints.length - 1) { const prevRisk =
dataPoints[index - 1]?.risk || risk; risk = risk*0.8 + prevRisk*0.2 }`.
`dataPoints` is the *input* array of the surrounding `.map`, so `prevRisk`
is the risk of the previous point as it stood in the input; `||` replaces a
falsy (`0`, `NaN`) stored risk by the current `risk` itself. -/
def smoothAt (dataPoints : List Pt) (index : ℕ) (risk : ℚ) : ℚ :=
  if 0 < index ∧ index < dataPoints.length - 1 then
    let prevRisk :=
      if (dataPoints.getD (index - 1) pt0).risk = 0 then risk
      else (dataPoints.getD (index - 1) pt0).risk
    risk * 0.8 + prevRisk * 0.2
  else risk

/-- The body of the arrow function inside the
`dataPoints.map((point, index) => ...)` of `calculateEMAFocusedRisk`. -/
def emaPointRisk (now : ℚ) (th : Thresholds) (dataPoints : List Pt)
    (index : ℕ) (point : Pt) : Pt :=
  if point.sma50 = 0 ∨ point.ema8 = 0 ∨ point.ema21 = 0 then
    { point with risk := 5 }
  else
    { point with
      risk := round2 (smoothAt dataPoints index (emaRawRisk now th dataPoints index point)) }

/-- Embeds `calculateEMAFocusedRisk` (identical in `stock-risk-utils.ts` and in the
generation script, which merges the per-stock thresholds over the defaults
before calling). -/
def calculateEMAFocusedRisk (now : ℚ) (th : Thresholds) (dataPoints : List Pt) : List Pt :=
  jsMapIdx (emaPointRisk now th dataPoints) dataPoints

/-- Embeds `calculateRollingPercentile(value, array, index, window)` from the
indicators module.  The source sorts the slice ascending and counts
`sorted[i] <= value`; sorting does not change that count (it is a property
of the multiset), so the embedding counts directly on the slice. -/
def calculateRollingPercentile (value : ℚ) (array : List ℚ) (index : ℕ) (window : ℕ) : ℚ :=
  let slice := jsSlice array (max 0 ((index : Int) - (window : Int))) ((index : Int) + 1)
  if slice.length < 10 then 50
  else ((slice.countP (fun x => x ≤ value) : ℚ) / slice.length) * 100

/-- The squared values of `calculateRollingVolatility(prices, period)`: the
source pushes `0` for `i < period - 1` and otherwise
`Math.sqrt(variance) * Math.sqrt(252)` of the daily returns of the trailing
`period` prices.  Downstream (in `calculateEnhancedRisk`) these values are
consumed only through order comparisons inside `calculateRollingPercentile`,
and squaring is strictly monotone on the nonnegative reals, so the
embedding keeps `variance * 252` (with `0² = 0` for the sentinel). -/
def calculateRollingVolatilitySq (prices : List ℚ) (period : ℕ) : List ℚ :=
  jsMapIdx (fun i _ =>
    if (i : Int) < (period : Int) - 1 then 0
    else
      let slice := jsSlice prices ((i : Int) - (period : Int) + 1) ((i : Int) + 1)
      let returns := List.zipWith (fun next prev => (next - prev) / prev) slice.tail slice
      let mean := jsSum returns / returns.length
      let variance := jsSum (returns.map (fun b => (b - mean) ^ 2)) / returns.length
      variance * 252) prices

/-- The body of the arrow function inside the
`dataPoints.map((point, index) => ...)` of `calculateEnhancedRisk`.  `volSqs` are the (squared)
rolling volatilities, `devs200` the precomputed
`dataPoints.map(d => (d.price - d.sma200) / d.sma200)` array.
(`ℚ` renders a `d.sma200 = 0` entry of that array as `0` where JS produces
`±Infinity`; no theorem below depends on a risk value influenced by such an
entry — the bounds theorem rests only on the final clamp, and the frame and
idempotence theorems do not read the risk at all.) -/
def enhancedPointRisk (th : Thresholds) (volSqs devs200 : List ℚ)
    (index : ℕ) (point : Pt) : Pt :=
  if index < 130 then { point with risk := 5 }
  else
    let dev200 := (point.price - point.sma200) / point.sma200
    let dev8 := (point.price - point.ema8) / point.ema8
    let vol := volSqs.getD index 0
    let percentile200 := calculateRollingPercentile dev200 devs200 index 780
    let baseRisk :=
      if percentile200 ≤ 10 then 1 + percentile200 / 10
      else if percentile200 ≤ 30 then 2 + ((percentile200 - 10) / 20) * 1.5
      else if percentile200 ≤ 50 then 3.5 + ((percentile200 - 30) / 20) * 1.5
      else if percentile200 ≤ 70 then 5 + ((percentile200 - 50) / 20) * 1
      else if percentile200 ≤ 85 then 6 + ((percentile200 - 70) / 15) * 1
      else if percentile200 ≤ 95 then 7 + ((percentile200 - 85) / 10) * 1
      else 8 + ((percentile200 - 95) / 5) * 0.5
    let volPercentile := calculateRollingPercentile vol volSqs index 520
    let baseRisk2 :=
      if volPercentile > 80 then baseRisk + 0.3
      else if volPercentile < 20 then baseRisk - 0.3
      else baseRisk
    let baseRisk3 :=
      if dev8 > th.yellowTerritory then max baseRisk2 7.5
      else if dev8 < -0.1 then min baseRisk2 4
      else baseRisk2
    let finalRisk := max 1 (min 8.5 baseRisk3)
    { point with risk := round2 finalRisk }

/-- Embeds `calculateEnhancedRisk` from `stock-risk-utils.ts`. -/
def calculateEnhancedRisk (th : Thresholds) (dataPoints : List Pt) : List Pt :=
  let prices := dataPoints.map Pt.price
  let volSqs := calculateRollingVolatilitySq prices 65
  let devs200 := dataPoints.map (fun d => (d.price - d.sma200) / d.sma200)
  jsMapIdx (enhancedPointRisk th volSqs devs200) dataPoints

/-- The body of the `dataPoints.map(point => ...)` of `calculateSimpleRisk`. -/
def simplePointRisk (point : Pt) : Pt :=
  let dev200 := if point.sma200 > 0 then (point.price - point.sma200) / point.sma200 else 0
  let dev8 := if point.ema8 > 0 then (point.price - point.ema8) / point.ema8 else 0
  let risk :=
    if dev200 ≤ 0 then (1 : ℚ)
    else if dev8 ≥ 0.3 then 10
    else
      let normalizedRisk := min (dev8 / 0.3) 1
      1 + normalizedRisk * 9
  { point with risk := round2 risk }

/-- Embeds `calculateSimpleRisk` from `stock-risk-utils.ts` (its `config`
parameter is never read in the body). -/
def calculateSimpleRisk (dataPoints : List Pt) : List Pt :=
  dataPoints.map simplePointRisk

/-- Embeds `calculateRisk`, the strategy dispatch (the `switch` default is
`calculateEMAFocusedRisk` and is unreachable for the typed selector). -/
def calculateRisk (now : ℚ) (config : Config) (dataPoints : List Pt) : List Pt :=
  match config.algorithm with
  | .emaFocused => calculateEMAFocusedRisk now config.riskThresholds dataPoints
  | .enhanced => calculateEnhancedRisk config.riskThresholds dataPoints
  | .simple => calculateSimpleRisk dataPoints

/-- Embeds `calculateSMA(data, period)` from the indicators module (duplicated in
the generation script).  An element is `some q` when JS produces the finite
number `q` and `none` when it produces a non-finite value: the only
division is `sum / period`, and a zero divisor is reached exactly for
`period = 0`, where the slice `data.slice(i+1, i+1)` is empty, `sum` is
`0`, and JS yields `0/0 = NaN`.  (For `period < 0` the slice is also empty
and `0 / period` is JS `-0`, i.e. the number `0`.) -/
def calculateSMA (data : List ℚ) (period : Int) : List (Option ℚ) :=
  jsMapIdx (fun i _ =>
    if (i : Int) < period - 1 then some 0
    else
      let sum := jsSum (jsSlice data ((i : Int) - period + 1) ((i : Int) + 1))
      if period = 0 then none else some (sum / (period : ℚ))) data

/-- The recurrence of `calculateEMA`: `prev` is the previously pushed
output value. -/
def emaGo (multiplier : ℚ) : ℚ → List ℚ → List ℚ
  | _, [] => []
  | prev, x :: rest =>
    let v := x * multiplier + prev * (1 - multiplier)
    v :: emaGo multiplier v rest

/-- Embeds `calculateEMA(data, period)` from the indicators module:
`multiplier = 2 / (period + 1)`, `output[0] = data[0]`, and
`output[i] = data[i]*multiplier + output[i-1]*(1-multiplier)`.
(For `period = -1` JS would divide by zero and produce `Infinity`; `ℚ`
yields multiplier `0`.  Every theorem below assumes `1 ≤ period`.) -/
def calculateEMA (data : List ℚ) (period : Int) : List ℚ :=
  let multiplier : ℚ := 2 / ((period : ℚ) + 1)
  match data with
  | [] => []
  | x :: rest => x :: emaGo multiplier x rest

/-- One data row of a per-stock CSV file, with each written cell modelled
by the exact rational value its decimal text denotes.  `dateStr` holds the
epoch milliseconds of the midnight-UTC instant named by the written
`YYYY-MM-DD` text. -/
structure CsvRow where
  dateStr : ℚ
  priceStr : ℚ
  timestampStr : ℚ
  ema8Str : ℚ
  ema21Str : ℚ
  sma50Str : ℚ
  sma100Str : ℚ
  sma200Str : ℚ
  sma400Str : ℚ
  riskStr : ℚ
deriving DecidableEq

/-- Embeds `x.toFixed(2)` read back as a rational.  JS `toFixed` rounds to the
nearest 2-decimal value (tie behaviour depends on the binary float below
the decimal text); the embedding uses `round2`.  Every theorem below uses
only `|toFixed2 x - x| ≤ 1/200` and monotonicity, which hold for either
tie rule. -/
def toFixed2 (x : ℚ) : ℚ := round2 x

/-- Embeds the date part of `date.toISOString()` as an instant: truncation of the
epoch milliseconds down to the containing UTC day. -/
def floorDay (ms : ℚ) : ℚ := 86400000 * (⌊ms / 86400000⌋ : ℤ)

/-- Embeds `parseInt` applied to the decimal text of the number `q`: truncation
toward zero at the decimal point. -/
def jsTrunc (q : ℚ) : ℚ := if q < 0 then -((⌊-q⌋ : ℤ) : ℚ) else ((⌊q⌋ : ℤ) : ℚ)

/-- One row written by the CSV emitter of the generation script:
`date` as the ISO day, `price` and `timestamp` interpolated at full
precision (JS number-to-string round-trips exactly through `parseFloat`),
and the six moving averages and the risk via `.toFixed(2)`. -/
def writeRow (p : Pt) : CsvRow :=
  { dateStr := floorDay p.date
    priceStr := p.price
    timestampStr := p.timestamp
    ema8Str := toFixed2 p.ema8
    ema21Str := toFixed2 p.ema21
    sma50Str := toFixed2 p.sma50
    sma100Str := toFixed2 p.sma100
    sma200Str := toFixed2 p.sma200
    sma400Str := toFixed2 p.sma400
    riskStr := toFixed2 p.risk }

/-- Embeds the data section of `generateStockCSV`: one row per point, in order. -/
def generateStockCSV (pts : List Pt) : List CsvRow := pts.map writeRow

/-- One row parsed by `loadDataFromStockCSV`:
`new Date(dateStr)` is the midnight-UTC instant the text names;
`parseFloat(...) || 0` on a cell written from a finite number is the
number itself when nonzero and `0` otherwise (so the identity);
`parseInt(timestampStr) || 0` truncates at the decimal point;
`parseFloat(riskStr) || 5` replaces a zero (or unparsable) risk by `5`. -/
def parseRow (r : CsvRow) : Pt :=
  { date := r.dateStr
    price := r.priceStr
    ema8 := r.ema8Str
    ema21 := r.ema21Str
    sma50 := r.sma50Str
    sma100 := r.sma100Str
    sma200 := r.sma200Str
    sma400 := r.sma400Str
    risk := if r.riskStr = 0 then 5 else r.riskStr
    timestamp := jsTrunc r.timestampStr }

/-- Embeds the data pipeline of `loadDataFromStockCSV`: parse every data row, then
`filter(item => !isNaN(item.price) && item.price > 0)` (a parsed price is
never `NaN` for rows written from finite numbers). -/
def loadDataFromStockCSV (rows : List CsvRow) : List Pt :=
  (rows.map parseRow).filter (fun p => p.price > 0)

/-- Modelled from the spec: the volatility adjustment as §4.2 step 5 words
it, using the *population standard deviation* of the daily returns (mean
subtracted) instead of the root mean square the source computes.  As with
`volatilitySq`, the squared quantity (the population variance) is kept and
compared against `0.06² = 0.0036` and `0.04² = 0.0016`. -/
def volatilityStdSq (dataPoints : List Pt) (index : ℕ) : ℚ :=
  let recentPrices := (jsSlice dataPoints (max 0 ((index : Int) - 20)) ((index : Int) + 1)).map Pt.price
  let priceChanges := List.zipWith (fun next prev => (next - prev) / prev) recentPrices.tail recentPrices
  let mean := jsSum priceChanges / priceChanges.length
  jsSum (priceChanges.map (fun c => (c - mean) * (c - mean))) / priceChanges.length

/-- Modelled from the spec: STEP 3 with the population standard deviation
in place of the root mean square. -/
def volAdjustStd (w : ℚ) (dataPoints : List Pt) (index : ℕ) (risk : ℚ) : ℚ :=
  if w > 0.3 ∧ index > 50 then
    if volatilityStdSq dataPoints index > 0.0036 then risk - 0.2
    else if volatilityStdSq dataPoints index > 0.0016 then risk - 0.1
    else risk
  else risk

/-- Modelled from the spec: the EMA-focused pipeline with the claimed
standard-deviation volatility step; all other steps as in the source. -/
def emaRawRiskStd (now : ℚ) (th : Thresholds) (dataPoints : List Pt)
    (index : ℕ) (point : Pt) : ℚ :=
  let w := modernWeight now point
  let dev8EMA := (point.price - point.ema8) / point.ema8
  let dev21EMA := (point.price - point.ema21) / point.ema21
  let dev50SMA := (point.price - point.sma50) / point.sma50
  let dev100SMA := (point.price - point.sma100) / point.sma100
  let dev200SMA := (point.price - point.sma200) / point.sma200
  clamp110 (trendAdjust dev8EMA dev21EMA dev50SMA
    (volAdjustStd w dataPoints index
      (timeAdjust w
        (baseRiskFromDeviations th dev8EMA dev21EMA dev50SMA dev100SMA dev200SMA))))

/-- Modelled from the spec: `calculateEMAFocusedRisk` with the claimed
standard-deviation volatility step. -/
def calculateEMAFocusedRiskStd (now : ℚ) (th : Thresholds) (dataPoints : List Pt) : List Pt :=
  jsMapIdx (fun index point =>
    if point.sma50 = 0 ∨ point.ema8 = 0 ∨ point.ema21 = 0 then
      { point with risk := 5 }
    else
      { point with
        risk := round2 (smoothAt dataPoints index (emaRawRiskStd now th dataPoints index point)) })
    dataPoints

/-! ## Basic lemmas about the embedding helpers -/

lemma length_mapIdxGo {α β : Type} (f : ℕ → α → β) :
    ∀ (k : ℕ) (l : List α), (mapIdxGo f k l).length = l.length
  | _, [] => rfl
  | k, _ :: l => by simp [mapIdxGo, length_mapIdxGo f (k + 1) l]

lemma getD_mapIdxGo {α β : Type} (f : ℕ → α → β) (d : β) (d' : α) :
    ∀ (k : ℕ) (l : List α) (i : ℕ), i < l.length →
      (mapIdxGo f k l).getD i d = f (k + i) (l.getD i d')
  | _, [], i, h => by simp at h
  | k, a :: l, 0, _ => by simp [mapIdxGo]
  | k, a :: l, i + 1, h => by
    simp only [mapIdxGo, List.getD_cons_succ]
    rw [getD_mapIdxGo f d d' (k + 1) l i (by simpa using Nat.lt_of_succ_lt_succ h)]
    ring_nf

lemma mem_mapIdxGo {α β : Type} (f : ℕ → α → β) (d' : α) {a : β} :
    ∀ (k : ℕ) (l : List α), a ∈ mapIdxGo f k l →
      ∃ i, i < l.length ∧ a = f (k + i) (l.getD i d')
  | k, b :: l, h => by
    rcases List.mem_cons.mp h with h0 | h1
    · exact ⟨0, by simp, by simpa using h0⟩
    · obtain ⟨i, hi, ha⟩ := mem_mapIdxGo f d' (k + 1) l h1
      exact ⟨i + 1, by simpa using Nat.succ_lt_succ hi, by simpa [Nat.add_assoc, Nat.add_comm 1 i] using ha⟩

lemma length_jsMapIdx {α β : Type} (f : ℕ → α → β) (l : List α) :
    (jsMapIdx f l).length = l.length :=
  length_mapIdxGo f 0 l

lemma getD_jsMapIdx {α β : Type} (f : ℕ → α → β) (d : β) (d' : α)
    (l : List α) (i : ℕ) (h : i < l.length) :
    (jsMapIdx f l).getD i d = f i (l.getD i d') := by
  simpa using getD_mapIdxGo f d d' 0 l i h

lemma mem_jsMapIdx {α β : Type} (f : ℕ → α → β) (d' : α) {a : β} (l : List α)
    (h : a ∈ jsMapIdx f l) : ∃ i, i < l.length ∧ a = f i (l.getD i d') := by
  simpa using mem_mapIdxGo f d' 0 l h

lemma foldl_add_eq {l : List ℚ} : ∀ (a : ℚ), l.foldl (· + ·) a = a + l.sum := by
  induction l with
  | nil => simp
  | cons x t ih => intro a; simp [List.foldl_cons, ih, List.sum_cons]; ring

lemma jsSum_eq_sum (l : List ℚ) : jsSum l = l.sum := by
  simp [jsSum, foldl_add_eq]

lemma round2_mono {x y : ℚ} (h : x ≤ y) : round2 x ≤ round2 y := by
  unfold round2
  have hf : (⌊x * 100 + 1/2⌋ : ℤ) ≤ ⌊y * 100 + 1/2⌋ :=
    Int.floor_le_floor (by linarith)
  exact (div_le_div_iff_of_pos_right (by norm_num)).mpr (by exact_mod_cast hf)

lemma round2_sub_abs (x : ℚ) : |round2 x - x| ≤ 1/200 := by
  have h1 : ((⌊x * 100 + 1/2⌋ : ℤ) : ℚ) ≤ x * 100 + 1/2 := Int.floor_le _
  have h2 : x * 100 + 1/2 - 1 < ((⌊x * 100 + 1/2⌋ : ℤ) : ℚ) := Int.sub_one_lt_floor _
  rw [abs_le]; unfold round2
  constructor <;> linarith

lemma one_le_round2 {x : ℚ} (h : 1 ≤ x) : 1 ≤ round2 x := by
  have := round2_mono h
  have h1 : round2 1 = 1 := by with_unfolding_all decide
  linarith [h1 ▸ this]

lemma round2_le_ten {x : ℚ} (h : x ≤ 10) : round2 x ≤ 10 := by
  have := round2_mono h
  have h1 : round2 10 = 10 := by with_unfolding_all decide
  linarith [h1 ▸ this]

lemma clamp110_bounds (x : ℚ) : 1 ≤ clamp110 x ∧ clamp110 x ≤ 10 :=
  ⟨le_max_left 1 _, max_le (by norm_num) (min_le_left 10 x)⟩

/-! ## Frame and stability lemmas -/

/-- All fields of a point except `risk`. -/
def frameFields (p : Pt) : ℚ × ℚ × ℚ × ℚ × ℚ × ℚ × ℚ × ℚ × ℚ :=
  (p.date, p.price, p.ema8, p.ema21, p.sma50, p.sma100, p.sma200, p.sma400, p.timestamp)

lemma frameFields_emaPointRisk (now : ℚ) (th : Thresholds) (pts : List Pt)
    (i : ℕ) (p : Pt) : frameFields (emaPointRisk now th pts i p) = frameFields p := by
  unfold emaPointRisk; split <;> rfl

lemma frameFields_enhancedPointRisk (th : Thresholds) (volSqs devs200 : List ℚ)
    (i : ℕ) (p : Pt) : frameFields (enhancedPointRisk th volSqs devs200 i p) = frameFields p := by
  unfold enhancedPointRisk; split <;> rfl

lemma frameFields_simplePointRisk (p : Pt) :
    frameFields (simplePointRisk p) = frameFields p := rfl

lemma map_frame_mapIdxGo (f : ℕ → Pt → Pt)
    (h : ∀ i p, frameFields (f i p) = frameFields p) :
    ∀ (k : ℕ) (l : List Pt), (mapIdxGo f k l).map frameFields = l.map frameFields
  | _, [] => rfl
  | k, p :: l => by
    simp only [mapIdxGo, List.map_cons, h, map_frame_mapIdxGo f h (k + 1) l]

/-- C10: for every input series and every config, `calculateRisk` — under
each of its three strategies — returns exactly as many points as it is
given, and every output point keeps the `date`, `price`,
`timestamp`, `ema8`, `ema21`, `sma50`, `sma100`, `sma200` and `sma400`
of the input point unchanged; only the `risk` field is replaced. -/
theorem calculateRisk_frame (now : ℚ) (cfg : Config) (pts : List Pt) :
    (calculateRisk now cfg pts).length = pts.length ∧
    (calculateRisk now cfg pts).map frameFields = pts.map frameFields := by
  obtain ⟨alg, th⟩ := cfg
  cases alg
  case emaFocused =>
    exact ⟨length_jsMapIdx _ _,
      map_frame_mapIdxGo _ (frameFields_emaPointRisk now th pts) 0 pts⟩
  case enhanced =>
    exact ⟨length_jsMapIdx _ _,
      map_frame_mapIdxGo _ (frameFields_enhancedPointRisk th _ _) 0 pts⟩
  case simple =>
    refine ⟨List.length_map _ _, ?_⟩
    show List.map frameFields (List.map simplePointRisk pts) = List.map frameFields pts
    rw [List.map_map]
    congr 1

lemma volAdjust_stable {i : ℕ} (hi : ¬ 50 < i) (w : ℚ) (pts : List Pt) (r : ℚ) :
    volAdjust w pts i r = r := by
  simp [volAdjust, hi]

lemma smoothAt_stable {pts : List Pt} {i : ℕ}
    (hb : ¬ (0 < i ∧ i < pts.length - 1)) (r : ℚ) : smoothAt pts i r = r := by
  simp [smoothAt, hb]

lemma emaRawRisk_update (now : ℚ) (th : Thresholds) (pts pts' : List Pt)
    {i : ℕ} (hi : ¬ 50 < i) (p : Pt) (r : ℚ) :
    emaRawRisk now th pts' i { p with risk := r } = emaRawRisk now th pts i p := by
  simp [emaRawRisk, modernWeight, volAdjust_stable hi]

lemma emaPointRisk_restab (now : ℚ) (th : Thresholds) (pts pts' : List Pt)
    {i : ℕ} (p : Pt) (hi : ¬ 50 < i)
    (hb : ¬ (0 < i ∧ i < pts.length - 1)) (hb' : ¬ (0 < i ∧ i < pts'.length - 1)) :
    emaPointRisk now th pts' i (emaPointRisk now th pts i p) = emaPointRisk now th pts i p := by
  by_cases hg : p.sma50 = 0 ∨ p.ema8 = 0 ∨ p.ema21 = 0
  · simp [emaPointRisk, hg]
  · simp [emaPointRisk, hg, smoothAt_stable hb, smoothAt_stable hb',
      emaRawRisk_update now th pts pts' hi]

lemma simplePointRisk_idem (p : Pt) :
    simplePointRisk (simplePointRisk p) = simplePointRisk p := rfl

lemma calculateSimpleRisk_idem (pts : List Pt) :
    calculateSimpleRisk (calculateSimpleRisk pts) = calculateSimpleRisk pts := by
  show List.map simplePointRisk (List.map simplePointRisk pts) = List.map simplePointRisk pts
  rw [List.map_map]
  congr 1


lemma map_fn_mapIdxGo {γ : Type} (g : Pt → γ) (f : ℕ → Pt → Pt)
    (h : ∀ i p, g (f i p) = g p) :
    ∀ (k : ℕ) (l : List Pt), (mapIdxGo f k l).map g = l.map g
  | _, [] => rfl
  | k, p :: l => by
    simp only [mapIdxGo, List.map_cons, h, map_fn_mapIdxGo g f h (k + 1) l]

lemma mapIdxGo_idem (f : ℕ → Pt → Pt) (h : ∀ i p, f i (f i p) = f i p) :
    ∀ (k : ℕ) (l : List Pt), mapIdxGo f k (mapIdxGo f k l) = mapIdxGo f k l
  | _, [] => rfl
  | k, a :: l => by
    simp only [mapIdxGo]
    rw [h k a, mapIdxGo_idem f h (k + 1) l]

lemma enhancedPointRisk_stab (th : Thresholds) (volSqs devs200 : List ℚ)
    (i : ℕ) (p : Pt) :
    enhancedPointRisk th volSqs devs200 i (enhancedPointRisk th volSqs devs200 i p)
      = enhancedPointRisk th volSqs devs200 i p := by
  by_cases hc : i < 130
  · simp [enhancedPointRisk, hc]
  · simp [enhancedPointRisk, hc]

/-- Re-scoring with the `enhanced` strategy is idempotent on every series:
the strategy recomputes every risk from the `price`, `sma200`, `ema8` (and
index) data alone and never reads the stored `risk` field, and all those
inputs are preserved by the first scoring. -/
lemma calculateEnhancedRisk_idem (th : Thresholds) (pts : List Pt) :
    calculateEnhancedRisk th (calculateEnhancedRisk th pts) = calculateEnhancedRisk th pts := by
  have hunf : ∀ l : List Pt, calculateEnhancedRisk th l
      = jsMapIdx (enhancedPointRisk th (calculateRollingVolatilitySq (l.map Pt.price) 65)
          (l.map (fun d => (d.price - d.sma200) / d.sma200))) l := fun _ => rfl
  have hfix : ∀ i p, frameFields (enhancedPointRisk th
      (calculateRollingVolatilitySq (pts.map Pt.price) 65)
      (pts.map (fun d => (d.price - d.sma200) / d.sma200)) i p) = frameFields p :=
    frameFields_enhancedPointRisk th _ _
  have hprice : (calculateEnhancedRisk th pts).map Pt.price = pts.map Pt.price := by
    rw [hunf pts]
    exact map_fn_mapIdxGo Pt.price _
      (fun i p => by unfold enhancedPointRisk; split <;> rfl) 0 pts
  have hdev : (calculateEnhancedRisk th pts).map (fun d => (d.price - d.sma200) / d.sma200)
      = pts.map (fun d => (d.price - d.sma200) / d.sma200) := by
    rw [hunf pts]
    exact map_fn_mapIdxGo (fun d => (d.price - d.sma200) / d.sma200) _
      (fun i p => by unfold enhancedPointRisk; split <;> rfl) 0 pts
  conv_lhs => rw [hunf (calculateEnhancedRisk th pts)]
  rw [hprice, hdev, hunf pts]
  exact mapIdxGo_idem _ (enhancedPointRisk_stab th _ _) 0 pts

/-- C2 (amended): re-scoring with the same `now` anchor is idempotent for
the `enhanced` and `simple` strategies on series of every length (neither
ever reads the stored `risk` field), and for the `ema-focused` strategy on
series with at most two points (where no smoothing blend happens).  For
`ema-focused` series of three or more points a second scoring can change
middle points, because the smoothing blends with the *stored input* risk
of the previous point (see the counterexample). -/
theorem calculateRisk_rescore_amended (now : ℚ) (cfg : Config) (pts : List Pt)
    (h : cfg.algorithm = Algorithm.enhanced ∨ cfg.algorithm = Algorithm.simple
      ∨ pts.length ≤ 2) :
    calculateRisk now cfg (calculateRisk now cfg pts) = calculateRisk now cfg pts := by
  obtain ⟨alg, th⟩ := cfg
  cases alg
  case emaFocused =>
    have h2 : pts.length ≤ 2 := by
      rcases h with h | h | h
      · simp at h
      · simp at h
      · exact h
    show calculateEMAFocusedRisk now th (calculateEMAFocusedRisk now th pts)
      = calculateEMAFocusedRisk now th pts
    match pts with
    | [] => rfl
    | [a] =>
      simp only [calculateEMAFocusedRisk, jsMapIdx, mapIdxGo]
      rw [emaPointRisk_restab now th [a] _ a (by omega) (by simp) (by simp)]
    | [a, b] =>
      simp only [calculateEMAFocusedRisk, jsMapIdx, mapIdxGo]
      rw [emaPointRisk_restab now th [a, b] _ a (by omega) (by simp) (by simp),
        emaPointRisk_restab now th [a, b] _ b (by omega) (by simp) (by simp)]
    | a :: b :: c :: t => simp at h2
  case enhanced =>
    exact calculateEnhancedRisk_idem th pts
  case simple =>
    exact calculateSimpleRisk_idem pts

lemma jsSliceIdx_of_le {l a : ℕ} (h : a ≤ l) : jsSliceIdx (l : Int) (a : Int) = a := by
  unfold jsSliceIdx
  rw [if_neg (by omega), min_eq_right (by exact_mod_cast h),
    max_eq_right (by positivity)]
  omega

lemma jsSlice_eq_drop_take {α : Type} (l : List α) (a b : ℕ)
    (ha : a ≤ l.length) (hb : b ≤ l.length) :
    jsSlice l (a : Int) (b : Int) = (l.drop a).take (b - a) := by
  unfold jsSlice
  rw [jsSliceIdx_of_le ha, jsSliceIdx_of_le hb]

/-- The list of day-over-day fractional changes of a price list, written as
a plain structural recursion (the specification-side counterpart of the
`slice(1).map((p, i) => (p - prices[i]) / prices[i])` of the source). -/
def dailyReturns : List ℚ → List ℚ
  | a :: b :: t => (b - a) / a :: dailyReturns (b :: t)
  | _ => []

lemma zipWith_tail_dailyReturns :
    ∀ l : List ℚ, List.zipWith (fun next prev => (next - prev) / prev) l.tail l = dailyReturns l
  | [] => rfl
  | [_] => rfl
  | a :: b :: t => by
    simp only [List.tail_cons, List.zipWith, dailyReturns]
    exact congrArg _ (zipWith_tail_dailyReturns (b :: t))

lemma dailyReturns_length : ∀ l : List ℚ, (dailyReturns l).length = l.length - 1
  | [] => rfl
  | [_] => rfl
  | _ :: b :: t => by
    simp only [dailyReturns, List.length_cons]
    rw [dailyReturns_length (b :: t)]
    simp

lemma length_emaGo (m : ℚ) : ∀ (prev : ℚ) (l : List ℚ), (emaGo m prev l).length = l.length
  | _, [] => rfl
  | prev, x :: rest => by
    simp only [emaGo, List.length_cons]
    rw [length_emaGo m (x * m + prev * (1 - m)) rest]

lemma getD_emaGo_succ (m : ℚ) :
    ∀ (l : List ℚ) (prev : ℚ) (i : ℕ), i + 1 < l.length →
      (emaGo m prev l).getD (i + 1) 0
        = l.getD (i + 1) 0 * m + (emaGo m prev l).getD i 0 * (1 - m)
  | [], _, _, h => by simp at h
  | [_], _, _, h => by simp at h
  | x :: y :: t, prev, 0, _ => by
    simp [emaGo, List.getD_cons_zero, List.getD_cons_succ]
  | x :: y :: t, prev, i + 1, h => by
    simp only [emaGo, List.getD_cons_succ]
    exact getD_emaGo_succ m (y :: t) (x * m + prev * (1 - m)) i
      (by simpa using Nat.lt_of_succ_lt_succ h)

/-- C7: `calculateEMA` returns as many values as it is given; for a
non-empty input and window `w ≥ 1` the first output is the first price
(the seed — not a zero sentinel), and each later output follows the
recurrence `output[i] = prices[i]*m + output[i-1]*(1-m)` with
`m = 2/(w+1)`. -/
theorem calculateEMA_spec :
    (∀ (data : List ℚ) (period : Int), (calculateEMA data period).length = data.length) ∧
    (∀ (data : List ℚ) (period : Int), 1 ≤ period → data ≠ [] →
      (calculateEMA data period).getD 0 0 = data.getD 0 0) ∧
    (∀ (data : List ℚ) (period : Int) (i : ℕ), 1 ≤ period → i + 1 < data.length →
      (calculateEMA data period).getD (i + 1) 0
        = data.getD (i + 1) 0 * (2 / ((period : ℚ) + 1))
          + (calculateEMA data period).getD i 0 * (1 - 2 / ((period : ℚ) + 1))) := by
  refine ⟨?_, ?_, ?_⟩
  · intro data period
    cases data with
    | nil => rfl
    | cons x rest => simp [calculateEMA, length_emaGo]
  · intro data period _ hne
    cases data with
    | nil => exact absurd rfl hne
    | cons x rest => simp [calculateEMA]
  · intro data period i _ h
    cases data with
    | nil => simp at h
    | cons x rest =>
      cases i with
      | zero =>
        cases rest with
        | nil => simp at h
        | cons y t => simp [calculateEMA, emaGo]
      | succ j =>
        simp only [calculateEMA, List.getD_cons_succ]
        exact getD_emaGo_succ _ rest x j (by simpa using Nat.lt_of_succ_lt_succ h)

/-- C7 witness: the recurrence of `calculateEMA_spec` applied at
`prices = [4, 10]`, `w = 3` (`m = 1/2`): the second output is `7`. -/
theorem calculateEMA_spec_witness : (calculateEMA [4, 10] 3).getD 1 0 = 7 := by
  have h := calculateEMA_spec.2.2 [4, 10] 3 0 (by norm_num) (by norm_num)
  rw [h]
  with_unfolding_all decide

/-- C6 (amended): `calculateSMA` preserves length; `output[i] = 0` for
`i < w-1`; for `w ≥ 1` and `i ≥ w-1` the output at `i` is the arithmetic
mean of `prices[i-w+1 ..= i]`.  A window larger than the input length, or a
negative window, yields an all-zero output; but `w = 0` yields `NaN`
(modelled as `none`) at every index — not zero, as the claim states. -/
theorem calculateSMA_spec :
    (∀ (data : List ℚ) (period : Int), (calculateSMA data period).length = data.length) ∧
    (∀ (data : List ℚ) (period : Int) (i : ℕ), i < data.length → (i : Int) < period - 1 →
      (calculateSMA data period).getD i none = some 0) ∧
    (∀ (data : List ℚ) (period : Int) (i : ℕ), i < data.length → 1 ≤ period →
      period - 1 ≤ (i : Int) →
      (calculateSMA data period).getD i none
        = some ((((data.drop (i + 1 - period.toNat)).take period.toNat).sum) / (period : ℚ))) ∧
    (∀ (data : List ℚ) (period : Int), (data.length : Int) < period →
      ∀ x ∈ calculateSMA data period, x = some 0) ∧
    (∀ (data : List ℚ) (period : Int), period < 0 →
      ∀ x ∈ calculateSMA data period, x = some 0) ∧
    (∀ data : List ℚ, ∀ x ∈ calculateSMA data 0, x = none) := by
  refine ⟨?_, ?_, ?_, ?_, ?_, ?_⟩
  · intro data period
    exact length_jsMapIdx _ _
  · intro data period i hi hlt
    rw [show calculateSMA data period = jsMapIdx _ data from rfl,
      getD_jsMapIdx _ none 0 data i hi, if_pos hlt]
  · intro data period i hi h1 h2
    rw [show calculateSMA data period = jsMapIdx _ data from rfl,
      getD_jsMapIdx _ none 0 data i hi, if_neg (by omega)]
    simp only
    rw [if_neg (by omega)]
    rw [show ((i : Int) - period + 1) = ((i + 1 - period.toNat : ℕ) : Int) by omega,
      show ((i : Int) + 1) = ((i + 1 : ℕ) : Int) by omega,
      jsSlice_eq_drop_take data _ _ (by omega) (by omega),
      show i + 1 - (i + 1 - period.toNat) = period.toNat by omega,
      jsSum_eq_sum]
  · intro data period hlen x hx
    obtain ⟨i, hi, rfl⟩ := mem_jsMapIdx _ 0 data hx
    rw [if_pos (by omega)]
  · intro data period hneg x hx
    obtain ⟨i, hi, rfl⟩ := mem_jsMapIdx _ 0 data hx
    rw [if_neg (by omega)]
    simp only
    rw [if_neg (by omega)]
    have hslice : jsSlice data ((i : Int) - period + 1) ((i : Int) + 1) = [] := by
      unfold jsSlice
      have hmono : jsSliceIdx data.length ((i : Int) + 1)
          ≤ jsSliceIdx data.length ((i : Int) - period + 1) := by
        unfold jsSliceIdx
        rw [if_neg (by omega), if_neg (by omega)]
        exact Int.toNat_le_toNat (max_le_max le_rfl (min_le_min le_rfl (by omega)))
      simp [Nat.sub_eq_zero_of_le hmono]
    rw [hslice]
    norm_num [jsSum]
  · intro data x hx
    obtain ⟨i, hi, rfl⟩ := mem_jsMapIdx _ 0 data hx
    rw [if_neg (by omega)]
    simp

/-- C6 witness: the mean clause of `calculateSMA_spec` at
`prices = [1, 2, 3]`, `w = 2`, `i = 1`: the output is the mean `3/2` of the
trailing two prices. -/
theorem calculateSMA_spec_witness : (calculateSMA [1, 2, 3] 2).getD 1 none = some (3/2) := by
  rw [calculateSMA_spec.2.2.1 [1, 2, 3] 2 1 (by norm_num) (by norm_num) (by norm_num)]
  with_unfolding_all decide

/-- C6 counterexample: for window `0` the output is not the all-zero list
the claim describes — every entry is JavaScript `NaN` (here `none`),
because the empty slice sums to `0` and `0/0` is `NaN`. -/
theorem calculateSMA_zero_window_cex :
    calculateSMA [1] 0 = [none] ∧ (none : Option ℚ) ≠ some 0 :=
  ⟨by with_unfolding_all decide, by simp⟩

/-! ## Concrete series used by the counterexamples and witnesses -/

/-- A point with no 50-week SMA yet (`sma50 = 0`): the guard emits `5`. -/
def cexGuardPt : Pt :=
  { date := 0, price := 100, ema8 := 100, ema21 := 100, sma50 := 0,
    sma100 := 0, sma200 := 0, sma400 := 0, risk := 0, timestamp := 0 }

/-- A fully-populated point 20% above all its moving averages. -/
def cexMidPt : Pt :=
  { date := 0, price := 120, ema8 := 100, ema21 := 100, sma50 := 100,
    sma100 := 100, sma200 := 100, sma400 := 100, risk := 0, timestamp := 0 }

/-- A three-point series whose middle point is eligible for smoothing. -/
def cexSeries : List Pt := [cexGuardPt, cexMidPt, cexGuardPt]

/-- C4: in the EMA-focused algorithm, a point whose `sma50`, `ema8` or
`ema21` is zero is emitted as the input point with `risk = 5` exactly —
no later pipeline step (deviations, base risk, time decay, volatility,
trend alignment, bound/smooth/round) touches it. -/
theorem emaFocused_guard (now : ℚ) (th : Thresholds) (pts : List Pt) (i : ℕ)
    (h : i < pts.length)
    (hg : (pts.getD i pt0).sma50 = 0 ∨ (pts.getD i pt0).ema8 = 0 ∨ (pts.getD i pt0).ema21 = 0) :
    (calculateEMAFocusedRisk now th pts).getD i pt0 = { pts.getD i pt0 with risk := 5 } := by
  rw [show calculateEMAFocusedRisk now th pts = jsMapIdx _ pts from rfl,
    getD_jsMapIdx _ pt0 pt0 pts i h]
  unfold emaPointRisk
  rw [if_pos hg]

/-- C4 witness: `emaFocused_guard` applied to the first point of
`cexSeries`, whose `sma50` is `0`. -/
theorem emaFocused_guard_witness :
    (calculateEMAFocusedRisk 0 defaultThresholds cexSeries).getD 0 pt0
      = { cexGuardPt with risk := 5 } :=
  emaFocused_guard 0 defaultThresholds cexSeries 0 (by decide) (Or.inl rfl)

/-- C1 (amended): for a non-guarded point the EMA-focused scorer emits the
clamped pre-smoothing risk blended — for all but the first and last index —
with the risk of the previous point *as stored in the input series* (falling
back to the current clamped value when that stored risk is `0`), then
rounded to 2 decimals.  It is not blended with the freshly-computed
output risk of the previous point: the surrounding `.map` never sees its own
output (see the counterexample). -/
theorem emaFocused_smoothing_spec (now : ℚ) (th : Thresholds) (pts : List Pt) (i : ℕ)
    (h : i < pts.length)
    (hg : ¬ ((pts.getD i pt0).sma50 = 0 ∨ (pts.getD i pt0).ema8 = 0 ∨ (pts.getD i pt0).ema21 = 0)) :
    ((calculateEMAFocusedRisk now th pts).getD i pt0).risk
      = round2 (if 0 < i ∧ i < pts.length - 1 then
          emaRawRisk now th pts i (pts.getD i pt0) * 0.8 +
            (if (pts.getD (i - 1) pt0).risk = 0 then emaRawRisk now th pts i (pts.getD i pt0)
             else (pts.getD (i - 1) pt0).risk) * 0.2
        else emaRawRisk now th pts i (pts.getD i pt0)) := by
  rw [show calculateEMAFocusedRisk now th pts = jsMapIdx _ pts from rfl,
    getD_jsMapIdx _ pt0 pt0 pts i h]
  unfold emaPointRisk
  rw [if_neg hg]
  rfl

/-- C1 witness: `emaFocused_smoothing_spec` applied to the middle point of
`cexSeries`; its clamped pre-smoothing risk is `8.75`, the previous input
previous input point carries stored risk `0`, so the blend falls back and the point is
emitted at `8.75`. -/
theorem emaFocused_smoothing_spec_witness :
    ((calculateEMAFocusedRisk 0 defaultThresholds cexSeries).getD 1 pt0).risk = 35/4 := by
  rw [emaFocused_smoothing_spec 0 defaultThresholds cexSeries 1 (by decide)
    (by with_unfolding_all decide)]
  with_unfolding_all decide

/-- C1 counterexample: in `cexSeries` the first output risk is `5` and the
clamped pre-smoothing risk of the middle point is `8.75`; blending with the
previous *output* risk as the claim states would emit
`round2(8.75*0.8 + 5*0.2) = 8`, but the code emits `8.75` (it blends with
the previous *input* risk `0`, which falls back to `8.75`). -/
theorem emaFocused_smoothing_claim_cex :
    ((calculateEMAFocusedRisk 0 defaultThresholds cexSeries).getD 1 pt0).risk = 35/4 ∧
    ((calculateEMAFocusedRisk 0 defaultThresholds cexSeries).getD 0 pt0).risk = 5 ∧
    emaRawRisk 0 defaultThresholds cexSeries 1 cexMidPt = 35/4 ∧
    round2 ((35/4) * 0.8 + 5 * 0.2) = 8 ∧ (35/4 : ℚ) ≠ 8 := by
  refine ⟨?_, ?_, ?_, ?_, ?_⟩ <;> with_unfolding_all decide

/-- C2 counterexample: scoring `cexSeries` twice with the same anchor is
not idempotent — the middle risk changes from `8.75` to `8` on the second
run, because the second run blends with the now-nonzero previous
stored risk `5`. -/
theorem calculateRisk_rescore_cex :
    calculateRisk 0 defaultConfig (calculateRisk 0 defaultConfig cexSeries)
      ≠ calculateRisk 0 defaultConfig cexSeries := by
  with_unfolding_all decide

/-- The `enhanced`-strategy configuration. -/
def enhancedAlgoConfig : Config := { algorithm := .enhanced, riskThresholds := defaultThresholds }

/-- C2 witness: `calculateRisk_rescore_amended` applied twice — to the
three-point `cexSeries` under the `enhanced` strategy (idempotent at any
length), and to the one-point series `[cexGuardPt]` under the default
ema-focused strategy (at most two points). -/
theorem calculateRisk_rescore_amended_witness :
    calculateRisk 0 enhancedAlgoConfig (calculateRisk 0 enhancedAlgoConfig cexSeries)
      = calculateRisk 0 enhancedAlgoConfig cexSeries ∧
    calculateRisk 0 defaultConfig (calculateRisk 0 defaultConfig [cexGuardPt])
      = calculateRisk 0 defaultConfig [cexGuardPt] :=
  ⟨calculateRisk_rescore_amended 0 enhancedAlgoConfig cexSeries (Or.inl rfl),
    calculateRisk_rescore_amended 0 defaultConfig [cexGuardPt] (Or.inr (Or.inr (by decide)))⟩

lemma getD_mem_of_lt (l : List Pt) {i : ℕ} (h : i < l.length) : l.getD i pt0 ∈ l := by
  rw [List.getD_eq_getElem l pt0 h]
  exact List.getElem_mem h

lemma emaRawRisk_bounds (now : ℚ) (th : Thresholds) (pts : List Pt) (i : ℕ) (p : Pt) :
    1 ≤ emaRawRisk now th pts i p ∧ emaRawRisk now th pts i p ≤ 10 := by
  simp only [emaRawRisk]
  exact clamp110_bounds _

lemma smoothAt_bounds (pts : List Pt) (i : ℕ) {r : ℚ}
    (hr1 : 1 ≤ r) (hr2 : r ≤ 10)
    (hin : ∀ p ∈ pts, p.risk = 0 ∨ (1 ≤ p.risk ∧ p.risk ≤ 10)) :
    1 ≤ smoothAt pts i r ∧ smoothAt pts i r ≤ 10 := by
  simp only [smoothAt]
  split
  next hc =>
    obtain ⟨h0, h1⟩ := hc
    split
    next => exact ⟨by linarith, by linarith⟩
    next hnz =>
      have hip : i - 1 < pts.length := by omega
      rcases hin _ (getD_mem_of_lt pts hip) with hz | ⟨ha, hb⟩
      · exact absurd hz hnz
      · exact ⟨by linarith, by linarith⟩
  next => exact ⟨hr1, hr2⟩

/-- C3 (amended): under the `ema-focused` and `enhanced` strategies, every
emitted risk lies in `[1, 10]` — provided (for `ema-focused`) that every
*input* point carries stored risk `0` (unscored) or a risk within `[1, 10]`,
since the smoothing blend reads the previous risk of the input.  The claim as
stated fails: the `simple` strategy has no lower clamp and can emit risks
far below `1` (see the counterexample), and `ema-focused` inherits any
out-of-range stored input risk through the blend. -/
theorem calculateRisk_bounds_amended (now : ℚ) (cfg : Config) (pts : List Pt)
    (halg : cfg.algorithm = Algorithm.emaFocused ∨ cfg.algorithm = Algorithm.enhanced)
    (hin : ∀ p ∈ pts, p.risk = 0 ∨ (1 ≤ p.risk ∧ p.risk ≤ 10)) :
    ∀ q ∈ calculateRisk now cfg pts, 1 ≤ q.risk ∧ q.risk ≤ 10 := by
  obtain ⟨alg, th⟩ := cfg
  intro q hq
  cases alg
  case emaFocused =>
    obtain ⟨i, hi, rfl⟩ := mem_jsMapIdx _ pt0 pts hq
    unfold emaPointRisk
    split
    · exact ⟨by norm_num, by norm_num⟩
    · have hraw := emaRawRisk_bounds now th pts i (pts.getD i pt0)
      have hs := smoothAt_bounds pts i hraw.1 hraw.2 hin
      exact ⟨one_le_round2 hs.1, round2_le_ten hs.2⟩
  case enhanced =>
    obtain ⟨i, hi, rfl⟩ := mem_jsMapIdx _ pt0 pts hq
    unfold enhancedPointRisk
    split
    · exact ⟨by norm_num, by norm_num⟩
    · refine ⟨one_le_round2 (le_max_left _ _), round2_le_ten ?_⟩
      exact max_le (by norm_num) (le_trans (min_le_left _ _) (by norm_num))
  case simple =>
    rcases halg with h | h <;> simp at h

/-- The `simple`-strategy configuration. -/
def simpleAlgoConfig : Config := { algorithm := .simple, riskThresholds := defaultThresholds }

/-- A point above its 200-week SMA but far below its 8-week EMA. -/
def simpleCexPt : Pt :=
  { date := 0, price := 100, ema8 := 200, ema21 := 100, sma50 := 100,
    sma100 := 100, sma200 := 90, sma400 := 100, risk := 0, timestamp := 0 }

/-- C3 counterexample: under the `simple` strategy, a point slightly above
its 200-week SMA but 50% below its 8-week EMA is emitted with risk
`1 + (-0.5/0.3)*9 = -14`, far outside `[1, 10]`. -/
theorem calculateRisk_bounds_cex :
    ¬ (∀ q ∈ calculateRisk 0 simpleAlgoConfig [simpleCexPt], 1 ≤ q.risk ∧ q.risk ≤ 10) := by
  with_unfolding_all decide

/-- C3 witness: `calculateRisk_bounds_amended` applied at the default
(ema-focused) config on the one-point series `[cexGuardPt]`. -/
theorem calculateRisk_bounds_amended_witness :
    1 ≤ ((calculateRisk 0 defaultConfig [cexGuardPt]).getD 0 pt0).risk ∧
    ((calculateRisk 0 defaultConfig [cexGuardPt]).getD 0 pt0).risk ≤ 10 :=
  calculateRisk_bounds_amended 0 defaultConfig [cexGuardPt] (Or.inl rfl)
    (by with_unfolding_all decide) _ (by with_unfolding_all decide)

/-- C8 (amended): with the default thresholds (`0.15`/`0.08`/`-0.05`), a
short-EMA deviation of exactly `0.16` yields base risk exactly `8.0`
(for any values of the other deviations); but a point with both EMA
deviations exactly `0` yields base risk `5 + (0.05/0.13)·1.5 = 145/26 ≈
5.58` — inside the moderate band `[5, 6.5]`, not inside `[4.5, 5]` as the
claim states. -/
theorem calculateRiskFromDeviations_boundaries :
    (∀ d21 d50 d100 d200 : ℚ, calculateRiskFromDeviations 0.16 d21 d50 d100 d200 = 8) ∧
    (∀ d50 d100 d200 : ℚ, calculateRiskFromDeviations 0 0 d50 d100 d200 = 145/26) ∧
    (5 ≤ (145/26 : ℚ) ∧ (145/26 : ℚ) ≤ 6.5) := by
  refine ⟨?_, ?_, by norm_num, by norm_num⟩
  · intro d21 d50 d100 d200
    unfold calculateRiskFromDeviations baseRiskFromDeviations clamp110 defaultThresholds
    rw [if_pos (by norm_num), if_neg (by norm_num), if_neg (by norm_num), if_neg (by norm_num)]
    rw [min_eq_right (by norm_num), max_eq_right (by norm_num)]
    norm_num
  · intro d50 d100 d200
    unfold calculateRiskFromDeviations baseRiskFromDeviations clamp110 defaultThresholds
    rw [if_neg (by norm_num), if_neg (by norm_num), if_pos (by norm_num)]
    rw [show (5.0 : ℚ) + (0 - -0.05) / (0.08 - -0.05) * 1.5 = 145/26 by norm_num]
    rw [min_eq_right (by norm_num), max_eq_right (by norm_num)]

/-- C8 counterexample: a point whose price equals both EMAs (both
deviations `0`) gets base risk `145/26 ≈ 5.58`, which is not in the
claimed range `[4.5, 5]`. -/
theorem calculateRiskFromDeviations_boundary_cex :
    calculateRiskFromDeviations 0 0 0 0 0 = 145/26 ∧
    ¬ ((9/2 : ℚ) ≤ 145/26 ∧ (145/26 : ℚ) ≤ 5) := by
  refine ⟨by with_unfolding_all decide, by norm_num⟩

/-- C5 (amended): the `volatility` the EMA-focused scorer tests against
`0.06`/`0.04` is the *root mean square* of the 20 daily returns of the
trailing window `points[i-20 ..= i]` — the mean return is **not**
subtracted, so it is not the population standard deviation the claim
describes (the two agree only when the mean return is zero; see the
counterexample).  Stated on squares: `volatilitySq` equals the mean of the
squared returns of that window. -/
theorem volatilitySq_is_rms (pts : List Pt) (i : ℕ) (h20 : 20 ≤ i) (h : i < pts.length) :
    (dailyReturns (((pts.map Pt.price).drop (i - 20)).take 21)).length = 20 ∧
    volatilitySq pts i
      = ((dailyReturns (((pts.map Pt.price).drop (i - 20)).take 21)).map (fun r => r * r)).sum / 20 := by
  have hl : (((pts.map Pt.price).drop (i - 20)).take 21).length = 21 := by
    simp only [List.length_take, List.length_drop, List.length_map]
    omega
  have hwin : (jsSlice pts (max 0 ((i : Int) - 20)) ((i : Int) + 1)).map Pt.price
      = ((pts.map Pt.price).drop (i - 20)).take 21 := by
    rw [show max 0 ((i : Int) - 20) = ((i - 20 : ℕ) : Int) by omega,
      show ((i : Int) + 1) = ((i + 1 : ℕ) : Int) by omega,
      jsSlice_eq_drop_take pts _ _ (by omega) (by omega),
      show i + 1 - (i - 20) = 21 by omega,
      List.map_take, List.map_drop]
  refine ⟨by rw [dailyReturns_length, hl], ?_⟩
  simp only [volatilitySq]
  rw [hwin, zipWith_tail_dailyReturns, jsSum_eq_sum, dailyReturns_length, hl]
  norm_num

/-- One point of the volatility counterexample series: constant price `100`
until index 31, then steady 5% growth per point; every moving-average
field equals the price (all deviations zero) and the stored risk is `0`. -/
def volCexPt (j : ℕ) : Pt :=
  { date := 0, price := 100 * (21/20) ^ (j - 31), ema8 := 100 * (21/20) ^ (j - 31),
    ema21 := 100 * (21/20) ^ (j - 31), sma50 := 100 * (21/20) ^ (j - 31),
    sma100 := 100 * (21/20) ^ (j - 31), sma200 := 100 * (21/20) ^ (j - 31),
    sma400 := 100 * (21/20) ^ (j - 31), risk := 0, timestamp := 0 }

/-- A 53-point series whose index-51 volatility window has 20 constant
returns of exactly `0.05`: root mean square `0.05 ∈ (0.04, 0.06]`, but
population standard deviation `0`. -/
def volCexSeries : List Pt := (List.range 53).map volCexPt

set_option maxRecDepth 10000 in
/-- C5 counterexample: at index 51 of `volCexSeries` (recency weight 1,
`i > 50`), the RMS volatility `0.05` of the code triggers the `-0.1`
adjustment, emitting `5.33`; the claimed standard-deviation volatility is
`0`, which would leave the risk untouched at `5.43`. -/
theorem emaFocused_volatility_cex :
    ((calculateEMAFocusedRisk 0 defaultThresholds volCexSeries).getD 51 pt0).risk = 533/100 ∧
    ((calculateEMAFocusedRiskStd 0 defaultThresholds volCexSeries).getD 51 pt0).risk = 543/100 ∧
    (533/100 : ℚ) ≠ 543/100 := by
  refine ⟨?_, ?_, by norm_num⟩ <;> with_unfolding_all decide

/-- C5 witness: `volatilitySq_is_rms` applied to `volCexSeries` at
`i = 20`. -/
theorem volatilitySq_is_rms_witness :
    volatilitySq volCexSeries 20
      = ((dailyReturns (((volCexSeries.map Pt.price).drop (20 - 20)).take 21)).map
          (fun r => r * r)).sum / 20 :=
  (volatilitySq_is_rms volCexSeries 20 (by norm_num) (by with_unfolding_all decide)).2

/-- A point whose `date` is one second past midnight UTC. -/
def csvCexPt : Pt :=
  { date := 1000, price := 1, ema8 := 1, ema21 := 1, sma50 := 1,
    sma100 := 1, sma200 := 1, sma400 := 1, risk := 5, timestamp := 1000 }

/-- A point satisfying every hypothesis of the amended round-trip
theorem. -/
def csvOkPt : Pt :=
  { date := 0, price := 1, ema8 := 1, ema21 := 1, sma50 := 1,
    sma100 := 1, sma200 := 1, sma400 := 1, risk := 5, timestamp := 3 }

/-- C9 counterexample: the CSV writer emits only the ISO day of the
`date`, so a point whose date is one second past midnight parses back to
midnight — an error of 1000 ms, far beyond 2-decimal-place tolerance, so
the round trip does not reproduce every field. -/
theorem csv_roundTrip_cex :
    ((loadDataFromStockCSV (generateStockCSV [csvCexPt])).getD 0 pt0).date = 0 ∧
    csvCexPt.date = 1000 ∧
    ¬ (|(0 : ℚ) - 1000| ≤ 1/200) := by
  refine ⟨by with_unfolding_all decide, rfl, by norm_num⟩

/-- C9 (amended): for a scored series whose points have positive prices,
midnight-UTC dates, integer timestamps and risks `≥ 1`, writing the CSV
and parsing it back preserves the number of points; it reproduces `date`,
`price` and `timestamp` exactly (`price` and `timestamp` are written at
full precision, not with 2 decimals as the parenthetical of the claim says),
and each moving-average field and the risk to within `1/200` (they are
written with `toFixed(2)`). -/
theorem csv_roundTrip_amended (pts : List Pt)
    (hp : ∀ p ∈ pts, 0 < p.price ∧ floorDay p.date = p.date ∧
      1 ≤ p.risk ∧ jsTrunc p.timestamp = p.timestamp) :
    (loadDataFromStockCSV (generateStockCSV pts)).length = pts.length ∧
    ∀ i, i < pts.length →
      (((loadDataFromStockCSV (generateStockCSV pts)).getD i pt0).date
          = (pts.getD i pt0).date ∧
        ((loadDataFromStockCSV (generateStockCSV pts)).getD i pt0).price
          = (pts.getD i pt0).price ∧
        ((loadDataFromStockCSV (generateStockCSV pts)).getD i pt0).timestamp
          = (pts.getD i pt0).timestamp) ∧
      (|((loadDataFromStockCSV (generateStockCSV pts)).getD i pt0).ema8
          - (pts.getD i pt0).ema8| ≤ 1/200 ∧
        |((loadDataFromStockCSV (generateStockCSV pts)).getD i pt0).ema21
          - (pts.getD i pt0).ema21| ≤ 1/200 ∧
        |((loadDataFromStockCSV (generateStockCSV pts)).getD i pt0).sma50
          - (pts.getD i pt0).sma50| ≤ 1/200 ∧
        |((loadDataFromStockCSV (generateStockCSV pts)).getD i pt0).sma100
          - (pts.getD i pt0).sma100| ≤ 1/200 ∧
        |((loadDataFromStockCSV (generateStockCSV pts)).getD i pt0).sma200
          - (pts.getD i pt0).sma200| ≤ 1/200 ∧
        |((loadDataFromStockCSV (generateStockCSV pts)).getD i pt0).sma400
          - (pts.getD i pt0).sma400| ≤ 1/200) ∧
      |((loadDataFromStockCSV (generateStockCSV pts)).getD i pt0).risk
          - (pts.getD i pt0).risk| ≤ 1/200 := by
  have hout : loadDataFromStockCSV (generateStockCSV pts)
      = pts.map (fun p => parseRow (writeRow p)) := by
    unfold loadDataFromStockCSV generateStockCSV
    rw [List.map_map]
    apply List.filter_eq_self.mpr
    intro q hq
    obtain ⟨p, hp', rfl⟩ := List.mem_map.mp hq
    simpa [parseRow, writeRow] using (hp p hp').1
  rw [hout]
  refine ⟨List.length_map _ _, ?_⟩
  intro i hi
  have hgd : (pts.map (fun p => parseRow (writeRow p))).getD i pt0
      = parseRow (writeRow (pts.getD i pt0)) := by
    rw [List.getD_eq_getElem _ pt0 (by simpa using hi), List.getElem_map,
      List.getD_eq_getElem _ pt0 hi]
  rw [hgd]
  obtain ⟨h1, h2, h3, h4⟩ := hp _ (getD_mem_of_lt pts hi)
  have hnz : toFixed2 (pts.getD i pt0).risk ≠ 0 := by
    have := one_le_round2 h3
    unfold toFixed2
    intro hzero
    rw [hzero] at this
    norm_num at this
  refine ⟨⟨h2, rfl, h4⟩,
    ⟨round2_sub_abs _, round2_sub_abs _, round2_sub_abs _,
      round2_sub_abs _, round2_sub_abs _, round2_sub_abs _⟩, ?_⟩
  show |(if toFixed2 (pts.getD i pt0).risk = 0 then 5
        else toFixed2 (pts.getD i pt0).risk) - (pts.getD i pt0).risk| ≤ 1/200
  rw [if_neg hnz]
  exact round2_sub_abs _

set_option maxRecDepth 10000 in
/-- C9 witness: `csv_roundTrip_amended` applied to the one-point series
`[csvOkPt]`. -/
theorem csv_roundTrip_amended_witness :
    (loadDataFromStockCSV (generateStockCSV [csvOkPt])).length = [csvOkPt].length ∧
    ((loadDataFromStockCSV (generateStockCSV [csvOkPt])).getD 0 pt0).date
      = ([csvOkPt].getD 0 pt0).date := by
  have h := csv_roundTrip_amended [csvOkPt] (by with_unfolding_all decide)
  exact ⟨h.1, ((h.2 0 (by decide)).1).1⟩
